import Mathlib

/-!
# LoD: shadow atlas, texture format strings and animation control

A shallow embedding of the integer and string logic of the LoD demo
(`src/shadow.cc`, `src/engine/texture-inl.h`, `src/ayumi.cc`, `src/skybox.cc`,
`engine/mesh/animated_mesh_renderer.hpp`) together with the properties
established about it.

Conventions of the embedding:

* `int` / `size_t` members are natural numbers; the statements concern atlas
  dimensions whose products fit the machine types (a signed overflow in the
  constructor would already be undefined behaviour).
* `glm::mat4` values are kept abstract: the matrix type is a parameter `μ`.
* `float` values of `skybox.cc` are exact rationals.
* `std::string` is `List Char`; `abort()`, a failed `assert` and an
  out-of-bounds vector write are `none`.
-/

namespace LoD

/-! ## `src/shadow.cc` -/

/-- The rectangle handed to `gl::Viewport(x, y, w, h)`. -/
structure Viewport where
  x : Nat
  y : Nat
  width : Nat
  height : Nat
deriving DecidableEq, Repr

/-- The pixel `(px, py)` belongs to the viewport rectangle. -/
def Viewport.covers (v : Viewport) (px py : Nat) : Prop :=
  v.x ≤ px ∧ px < v.x + v.width ∧ v.y ≤ py ∧ py < v.y + v.height

instance (v : Viewport) (px py : Nat) : Decidable (v.covers px py) := by
  unfold Viewport.covers; infer_instance

/-- The viewport rectangle lies inside a texture of `w` by `h` pixels. -/
def Viewport.inside (v : Viewport) (w h : Nat) : Prop :=
  v.x + v.width ≤ w ∧ v.y + v.height ≤ h

instance (v : Viewport) (w h : Nat) : Decidable (v.inside w h) := by
  unfold Viewport.inside; infer_instance

/-- The members of `class Shadow` that the atlas logic reads and writes,
the dimensions of the depth texture uploaded by the constructor, and the
viewport most recently selected by the object (`none` before the first
`gl::Viewport` call it makes). -/
structure Shadow (μ : Type) where
  size_ : Nat
  xsize_ : Nat
  ysize_ : Nat
  curr_depth_ : Nat
  max_depth_ : Nat
  cp_matrices_ : List μ
  tex_width : Nat
  tex_height : Nat
  viewport : Option Viewport

namespace Shadow

variable {μ : Type}

/-- Source function `Shadow::Shadow(shadow_map_size, atlas_x_size, atlas_y_size)`: the member
initialisers and the `tex_.upload(.., size_*xsize_, size_*ysize_, ..)` call. -/
def new [Inhabited μ] (shadow_map_size atlas_x_size atlas_y_size : Nat) : Shadow μ :=
  { size_ := shadow_map_size
    xsize_ := atlas_x_size
    ysize_ := atlas_y_size
    curr_depth_ := 0
    max_depth_ := atlas_x_size * atlas_y_size
    cp_matrices_ := List.replicate (atlas_x_size * atlas_y_size) default
    tex_width := shadow_map_size * atlas_x_size
    tex_height := shadow_map_size * atlas_y_size
    viewport := none }

/-- The arguments of the `gl::Viewport` call in `Shadow::setViewPort`. -/
def tileViewport (s : Shadow μ) : Viewport :=
  let x := s.curr_depth_ / s.xsize_
  let y := s.curr_depth_ % s.xsize_
  { x := x * s.size_, y := y * s.size_, width := s.size_, height := s.size_ }

/-- Source function `Shadow::setViewPort`. -/
def setViewPort (s : Shadow μ) : Shadow μ :=
  { s with viewport := some s.tileViewport }

/-- Source function `Shadow::begin`: resets the depth, clears the whole atlas and selects the
0th tile. -/
def begin (s : Shadow μ) : Shadow μ :=
  { s with curr_depth_ := 0
           viewport := some { x := 0, y := 0, width := s.size_, height := s.size_ } }

/-- Source function `Shadow::push`. -/
def push (s : Shadow μ) : Shadow μ :=
  if s.curr_depth_ < s.max_depth_ then
    setViewPort { s with curr_depth_ := s.curr_depth_ + 1 }
  else s

/-- Source function `Shadow::modelCamProjMat`, as far as the object state is concerned: the
statement `cp_matrices_[curr_depth_] = biasMatrix * pc`, where `m` stands for
the computed matrix.  An index outside the vector is undefined behaviour and
gives `none`. -/
def modelCamProjMat (s : Shadow μ) (m : μ) : Option (Shadow μ) :=
  if s.curr_depth_ < s.cp_matrices_.length then
    some { s with cp_matrices_ := s.cp_matrices_.set s.curr_depth_ m }
  else none

/-- Source function `Shadow::getDepth`. -/
def getDepth (s : Shadow μ) : Nat := s.curr_depth_

/-- Source function `Shadow::getMaxDepth`. -/
def getMaxDepth (s : Shadow μ) : Nat := s.max_depth_

/-- Source function `Shadow::shadowCPs`. -/
def shadowCPs (s : Shadow μ) : List μ := s.cp_matrices_

/-- The calls a client can make on a `Shadow` between construction and use. -/
inductive Call (μ : Type) where
  | begin : Call μ
  | push : Call μ
  | modelCamProjMat (m : μ) : Call μ

/-- Performs one call. -/
def step (s : Shadow μ) : Call μ → Option (Shadow μ)
  | .begin => some s.begin
  | .push => some s.push
  | .modelCamProjMat m => s.modelCamProjMat m

/-- Performs a sequence of calls, left to right. -/
def run (s : Shadow μ) : List (Call μ) → Option (Shadow μ)
  | [] => some s
  | c :: cs => (s.step c).bind (fun s1 => run s1 cs)

/-- The freshly constructed object with `curr_depth_` set to `d`. -/
def atDepth (shadow_map_size atlas_x_size atlas_y_size d : Nat) : Shadow Unit :=
  { (new shadow_map_size atlas_x_size atlas_y_size : Shadow Unit) with curr_depth_ := d }

/-- What every call preserves: `max_depth_` and the size of `cp_matrices_` stay
`m`, and `curr_depth_` stays at most `m`. -/
def Inv (m : Nat) (s : Shadow μ) : Prop :=
  s.max_depth_ = m ∧ s.cp_matrices_.length = m ∧ s.curr_depth_ ≤ m

end Shadow

/-! ## `src/engine/texture-inl.h` -/

/-- The enumerators of `oglwrap::PixelDataFormat` returned by
`Texture::format`. -/
inductive PixelDataFormat where
  | Red | Green | Blue | Rg | Rgb | Rgba | Bgr | Bgra
  | RedInteger | GreenInteger | BlueInteger | RgInteger
  | RgbInteger | RgbaInteger | BgrInteger | BgraInteger
deriving DecidableEq, Repr

/-- The enumerators of `oglwrap::PixelDataInternalFormat` returned by
`Texture::internalFormat`. -/
inductive PixelDataInternalFormat where
  | Red | Rg | Rgb | Rgba | Srgb | SrgbAlpha
  | CompressedRed | CompressedRg | CompressedRgb | CompressedRgba
  | CompressedSrgb | CompressedSrgbAlpha
deriving DecidableEq, Repr

/-- The enumerator is one of the `Compressed*` internal formats. -/
def PixelDataInternalFormat.isCompressed : PixelDataInternalFormat → Bool
  | .CompressedRed | .CompressedRg | .CompressedRgb | .CompressedRgba
  | .CompressedSrgb | .CompressedSrgbAlpha => true
  | _ => false

/-- The call `std::string::find(char)`: the position of the first occurrence,
`none` for `npos`. -/
def find : List Char → Char → Option Nat
  | [], _ => none
  | a :: as, c => if a = c then some 0 else (find as c).map (· + 1)

/-- The call `format_string.erase(format_string.begin() + pos)`: removes the one
character at position `pos`. -/
def erase : List Char → Nat → List Char
  | [], _ => []
  | _ :: as, 0 => as
  | a :: as, pos + 1 => a :: erase as pos

/-- The width in bits of `size_t`. -/
def SIZE_WIDTH : Nat := 64

/-- The flag and format members of `engine::Texture<DATA_TYPE, NUM_COMPONENTS>`. -/
structure Texture where
  srgb_ : Bool
  compressed_ : Bool
  integer_ : Bool
  format_string_ : List Char
deriving DecidableEq, Repr

/-- The object under construction together with the constructor's by-value
parameter `format_string`. -/
structure CtorState where
  self : Texture
  format_string : List Char
deriving DecidableEq, Repr

/-- An `assert(cond)`: a no-op when `NDEBUG` is defined, otherwise `cond` decides
whether execution continues. -/
def assertOk (NDEBUG cond : Bool) : Bool := NDEBUG || cond

namespace Texture

/-- Constructor, lines 15-20: the `'S'` flag, with
`assert(NUM_COMPONENTS >= 3)`. -/
def ctorS (NDEBUG : Bool) (NUM_COMPONENTS : Int) (st : CtorState) : Option CtorState :=
  match find st.format_string 'S' with
  | some s_pos =>
    if assertOk NDEBUG (decide (NUM_COMPONENTS ≥ 3)) then
      some { self := { st.self with srgb_ := true }
             format_string := erase st.format_string s_pos }
    else none
  | none => some st

/-- Constructor, lines 22-26: the `'C'` flag. -/
def ctorC (st : CtorState) : CtorState :=
  match find st.format_string 'C' with
  | some c_pos =>
    { self := { st.self with compressed_ := true }
      format_string := erase st.format_string c_pos }
  | none => st

/-- Constructor, lines 28-32: the `'I'` flag. -/
def ctorI (st : CtorState) : CtorState :=
  match find st.format_string 'I' with
  | some i_pos =>
    { self := { st.self with integer_ := true }
      format_string := erase st.format_string i_pos }
  | none => st

/-- The constructor `Texture::Texture(file_name, format_string)` up to its last
assertion (lines 14-37; the image is loaded afterwards).  `init` holds the
members as they are when the body is entered, `NUM_COMPONENTS` is the `char`
template argument.  In `format_string.length() == NUM_COMPONENTS` the right-hand
side is converted to `size_t`.  A failed assertion gives `none`. -/
def ctor (NDEBUG : Bool) (NUM_COMPONENTS : Int) (init : Texture)
    (format_string : List Char) : Option Texture :=
  (ctorS NDEBUG NUM_COMPONENTS { self := init, format_string := format_string }).bind
    fun st1 =>
      let st3 := ctorI (ctorC st1)
      let self : Texture := { st3.self with format_string_ := st3.format_string }
      if assertOk NDEBUG (decide (NUM_COMPONENTS ≤ 4)) then
        if assertOk NDEBUG
            (decide ((st3.format_string.length : Int) = NUM_COMPONENTS % 2 ^ SIZE_WIDTH)) then
          some self
        else none
      else none

/-- Source function `Texture::format`; `none` is `abort()`. -/
def format (t : Texture) : Option PixelDataFormat :=
  if t.integer_ then
    if t.format_string_ = ['R'] then some .RedInteger
    else if t.format_string_ = ['G'] then some .GreenInteger
    else if t.format_string_ = ['B'] then some .BlueInteger
    else if t.format_string_ = ['R', 'G'] then some .RgInteger
    else if t.format_string_ = ['R', 'G', 'B'] then some .RgbInteger
    else if t.format_string_ = ['R', 'G', 'B', 'A'] then some .RgbaInteger
    else if t.format_string_ = ['B', 'G', 'R'] then some .BgrInteger
    else if t.format_string_ = ['B', 'G', 'R', 'A'] then some .BgraInteger
    else none
  else
    if t.format_string_ = ['R'] then some .Red
    else if t.format_string_ = ['G'] then some .Green
    else if t.format_string_ = ['B'] then some .Blue
    else if t.format_string_ = ['R', 'G'] then some .Rg
    else if t.format_string_ = ['R', 'G', 'B'] then some .Rgb
    else if t.format_string_ = ['R', 'G', 'B', 'A'] then some .Rgba
    else if t.format_string_ = ['B', 'G', 'R'] then some .Bgr
    else if t.format_string_ = ['B', 'G', 'R', 'A'] then some .Bgra
    else none

/-- Source function `Texture::internalFormat`; `none` is `abort()`. -/
def internalFormat (t : Texture) : Option PixelDataInternalFormat :=
  if t.compressed_ then
    if t.format_string_ = ['R'] ∨ t.format_string_ = ['G'] ∨ t.format_string_ = ['B'] then
      some .CompressedRed
    else if t.format_string_ = ['R', 'G'] then
      some .CompressedRg
    else if t.format_string_ = ['R', 'G', 'B'] ∨ t.format_string_ = ['B', 'G', 'R'] then
      some (if t.srgb_ then .CompressedSrgb else .CompressedRgb)
    else if t.format_string_ = ['R', 'G', 'B', 'A']
        ∨ t.format_string_ = ['B', 'G', 'R', 'A'] then
      some (if t.srgb_ then .CompressedSrgbAlpha else .CompressedRgba)
    else none
  else
    if t.format_string_ = ['R'] ∨ t.format_string_ = ['G'] ∨ t.format_string_ = ['B'] then
      some .Red
    else if t.format_string_ = ['R', 'G'] then
      some .Rg
    else if t.format_string_ = ['R', 'G', 'B'] ∨ t.format_string_ = ['B', 'G', 'R'] then
      some (if t.srgb_ then .Srgb else .Rgb)
    else if t.format_string_ = ['R', 'G', 'B', 'A']
        ∨ t.format_string_ = ['B', 'G', 'R', 'A'] then
      some (if t.srgb_ then .SrgbAlpha else .Rgba)
    else none

end Texture

/-- The format strings accepted by `Texture::format` and
`Texture::internalFormat`. -/
def knownFormats : List (List Char) :=
  [['R'], ['G'], ['B'], ['R', 'G'], ['R', 'G', 'B'], ['R', 'G', 'B', 'A'],
   ['B', 'G', 'R'], ['B', 'G', 'R', 'A']]

/-! ### The format string with its flag characters removed, stated on positions -/

/-- Position `i` of `s` holds the first occurrence of `c`: the character there
is `c` and `c` does not occur before position `i`. -/
def isFirstOccurrence (s : List Char) (c : Char) (i : Nat) : Bool :=
  decide (s[i]? = some c ∧ c ∉ s.take i)

/-- The characters of a string at the positions selected by `keep`, in their
original order. -/
def keepPositions : (Nat → Bool) → List Char → List Char
  | _, [] => []
  | keep, a :: as =>
    if keep 0 then a :: keepPositions (fun i => keep (i + 1)) as
    else keepPositions (fun i => keep (i + 1)) as

/-- The string `s` with exactly the first occurrence of each of `'S'`, `'C'`
and `'I'` removed and every other character kept in its original order. -/
def withoutFirstSCI (s : List Char) : List Char :=
  keepPositions
    (fun i => !(isFirstOccurrence s 'S' i || isFirstOccurrence s 'C' i
                 || isFirstOccurrence s 'I' i)) s

/-- Removal of the first occurrence of `c`, if any: `find` followed by
`erase`. -/
def eraseFirst (c : Char) (s : List Char) : List Char :=
  match find s c with
  | some pos => erase s pos
  | none => s

/-- One pass over the string dropping the first `'S'`, `'C'` and `'I'` that is
still pending according to the three flags. -/
def dropPending : Bool → Bool → Bool → List Char → List Char
  | _, _, _, [] => []
  | fS, fC, fI, a :: as =>
    if fS && a == 'S' then dropPending false fC fI as
    else if fC && a == 'C' then dropPending fS false fI as
    else if fI && a == 'I' then dropPending fS fC false as
    else a :: dropPending fS fC fI as

/-! ## `src/ayumi.cc` -/

/-- The two members of `engine::AnimParams` set in `ayumi.cc`: the animation
name and the transition time, the latter in hundredths of a second (the
literals `0.05f` .. `0.6f` of the source are 5 .. 60). -/
structure AnimParams where
  name : String
  transition_time : Nat
deriving DecidableEq, Repr

/-- The names passed to `addAnimation` in the constructor `Ayumi::Ayumi`, in
the order of the calls. -/
def registeredAnimations : List String :=
  ["Stand", "Walk", "MoonWalk", "Run", "JumpRise", "JumpFall", "Flip",
   "Attack", "Attack2", "Attack3", "Attack_Chain0"]

/-- The name passed to `anim_.setDefaultAnimation` in the constructor
`Ayumi::Ayumi`. -/
def defaultAnimation : String := "Stand"

/-- The answers of the `charmove_` queries `isJumping()`, `isJumpingRise()`,
`isDoingFlip()` and `isWalking()`; the class is declared outside the files at
hand, so the answers are inputs.  `setFlip(b)` stores `b` in `flip`. -/
structure CharacterMovement where
  jumping : Bool
  jumping_rise : Bool
  flip : Bool
  walking : Bool
deriving DecidableEq, Repr

/-- The keyboard and mouse state read through GLFW:
`glfwGetMouseButton(window_, GLFW_MOUSE_BUTTON_LEFT) == GLFW_PRESS` and
`glfwGetKey(window_, GLFW_KEY_LEFT_SHIFT) == GLFW_RELEASE`. -/
structure Keys where
  mouse_left_pressed : Bool
  left_shift_released : Bool
deriving DecidableEq, Repr

/-- The members of `Ayumi` that drive the choice of animation, and the global
`was_left_click`. -/
structure Ayumi where
  attack2_ : Bool
  attack3_ : Bool
  charmove_ : CharacterMovement
  was_left_click : Bool
deriving DecidableEq, Repr

/-- The call that `Ayumi::update` makes on `anim_`. -/
inductive AnimCall where
  | setCurrentAnimation (new_anim : AnimParams)
  | forceCurrentAnimation (new_anim : AnimParams)
  | setAnimToDefault
  | noCall
deriving DecidableEq, Repr

namespace Ayumi

/-- Source function `Ayumi::animationEndedCallback`: the returned parameters and the object
afterwards. -/
def animationEndedCallback (self : Ayumi) (keys : Keys) (current_anim : String) :
    AnimParams × Ayumi :=
  -- the first `if` / `else if` chain: either returns or updates the attack flags
  let chain : Option AnimParams × Ayumi :=
    if current_anim = "Attack" then
      if self.attack2_ || keys.mouse_left_pressed then
        (some ⟨"Attack2", 10⟩, self)
      else (none, self)
    else if current_anim = "Attack2" then
      let self1 := { self with attack2_ := false }
      if self1.attack3_ || keys.mouse_left_pressed then
        (some ⟨"Attack3", 5⟩, self1)
      else (none, self1)
    else if current_anim = "Attack3" then
      (none, { self with attack3_ := false })
    else (none, self)
  match chain with
  | (some params, self1) => (params, self1)
  | (none, self1) =>
    if current_anim = "Flip" then
      (⟨"JumpFall", 20⟩, { self1 with charmove_ := { self1.charmove_ with flip := false } })
    else if self1.charmove_.jumping then
      if self1.charmove_.jumping_rise then (⟨"JumpRise", 30⟩, self1)
      else (⟨"JumpFall", 30⟩, self1)
    else if self1.charmove_.walking then
      let transition_time :=
        if current_anim = "Attack2" then 40
        else if current_anim = "Attack_Chain0" then 50
        else 30
      if keys.left_shift_released then (⟨"Run", transition_time⟩, self1)
      else (⟨"Walk", transition_time⟩, self1)
    else
      if current_anim = "Attack2" then (⟨"Stand", 40⟩, self1)
      else if current_anim = "Attack_Chain0" then (⟨"Stand", 60⟩, self1)
      else (⟨"Stand", 20⟩, self1)

/-- Source function `Ayumi::update` after `charmove_->update(time)`: the call made on `anim_`
and the object afterwards; `curr_anim` is `anim_.getCurrentAnimation()`. -/
def update (self : Ayumi) (keys : Keys) (curr_anim : String) : AnimCall × Ayumi :=
  if self.was_left_click then
    let self1 := { self with was_left_click := false }
    if curr_anim = "Attack" then
      (.noCall, { self1 with attack2_ := true })
    else if curr_anim = "Attack2" then
      (.noCall, { self1 with attack3_ := true })
    else if curr_anim ≠ "Attack3" then
      if curr_anim = "JumpRise" ∨ curr_anim = "JumpFall" then
        (.forceCurrentAnimation ⟨"Attack", 20⟩, self1)
      else
        (.setCurrentAnimation ⟨"Attack", 30⟩, self1)
    else (.noCall, self1)
  else if self.charmove_.jumping then
    if self.charmove_.flip then
      if curr_anim = "JumpRise" then (.setCurrentAnimation ⟨"Flip", 5⟩, self)
      else (.setCurrentAnimation ⟨"Flip", 20⟩, self)
    else if self.charmove_.jumping_rise then
      (.setCurrentAnimation ⟨"JumpRise", 30⟩, self)
    else
      (.setCurrentAnimation ⟨"JumpFall", 30⟩, self)
  else
    if self.charmove_.walking then
      if keys.left_shift_released then (.setCurrentAnimation ⟨"Run", 30⟩, self)
      else (.setCurrentAnimation ⟨"Walk", 30⟩, self)
    else (.setAnimToDefault, self)

end Ayumi

/-! ## `engine/mesh/animated_mesh_renderer.hpp` -/

/-- The enumerators of `engine::AnimFlag` used in the sources at hand. -/
inductive AnimFlag where
  | None | Repeat | Mirrored | MirroredRepeat | Interruptable
deriving DecidableEq, Repr

/-- An `engine::AnimationState`: its `flags` bitfield, as the list of the flags
that are set, and its remaining members, of a type `σ`. -/
structure AnimationState (σ : Type) where
  flags : List AnimFlag
  other : σ

/-- The animation members of `class AnimatedMeshRenderer`; `others` stands for
`skinning_data_`, `anims_` and `anim_meta_info_`, of a type `τ`. -/
structure AnimatedMeshRenderer (σ τ : Type) where
  others : τ
  current_anim_ : AnimationState σ
  current_anim_name_ : String
  last_anim_ : AnimationState σ

/-- Modelled from the spec: the parts of
`animated_mesh_renderer_animation-control-inl.hpp` (not among the files at hand)
that `setCurrentAnimation` relies on: whether the renderer is in a transition at
a given time, and the private `changeAnimation`, which performs the change to
the animation named in `new_anim`. -/
structure AnimationControl (σ τ Time : Type) where
  inTransition : AnimatedMeshRenderer σ τ → Time → Bool
  changeAnimation : AnimatedMeshRenderer σ τ → AnimParams → Time → AnimatedMeshRenderer σ τ

namespace AnimatedMeshRenderer

variable {σ τ Time : Type}

/-- Source function `AnimatedMeshRenderer::getCurrentAnimation`. -/
def getCurrentAnimation (r : AnimatedMeshRenderer σ τ) : String := r.current_anim_name_

/-- Source function `AnimatedMeshRenderer::getCurrentAnimState`. -/
def getCurrentAnimState (r : AnimatedMeshRenderer σ τ) : AnimationState σ := r.current_anim_

/-- Source function `AnimatedMeshRenderer::isInterrupable`:
`current_anim_.flags.test(AnimFlag::Interruptable)`. -/
def isInterrupable (r : AnimatedMeshRenderer σ τ) : Bool :=
  decide (AnimFlag.Interruptable ∈ r.current_anim_.flags)

/-- Modelled from the spec: `AnimatedMeshRenderer::setCurrentAnimation`, whose
body is not among the files at hand, after its documentation: "Tries to change
the current animation to a specified one.  Only changes it if the current
animation is interruptable, it's not currently in a transition, and new animation
is not the same as the one currently playing." -/
def setCurrentAnimation (impl : AnimationControl σ τ Time) (r : AnimatedMeshRenderer σ τ)
    (new_anim : AnimParams) (current_time : Time) : AnimatedMeshRenderer σ τ :=
  if r.isInterrupable = true ∧ impl.inTransition r current_time = false
      ∧ new_anim.name ≠ r.current_anim_name_ then
    impl.changeAnimation r new_anim current_time
  else r

end AnimatedMeshRenderer

/-- A sample renderer playing the non-interruptable `"Attack"`. -/
def sampleRenderer : AnimatedMeshRenderer Unit Unit :=
  { others := (), current_anim_ := ⟨[AnimFlag.None], ()⟩, current_anim_name_ := "Attack",
    last_anim_ := ⟨[AnimFlag.Repeat, AnimFlag.Interruptable], ()⟩ }

/-- A sample of the absent implementation: never in a transition, and a change
that installs the new name with the interruptable flag. -/
def sampleControl : AnimationControl Unit Unit Nat :=
  { inTransition := fun _ _ => false
    changeAnimation := fun r p _ =>
      { r with last_anim_ := r.current_anim_
               current_anim_ := ⟨[AnimFlag.Interruptable], ()⟩
               current_anim_name_ := p.name } }

/-! ## `src/skybox.cc`

The `float` values of this file are modelled as exact rationals, the literals
`0.7f`, `0.8f`, `0.5f`, `0.1f` at their decimal values. -/

/-- The constant `day_duration`. -/
def day_duration : ℚ := 256

/-- The constant `day_start`. -/
def day_start : ℚ := day_duration / 16

/-- The C library function `fmod(x, y)` for `y ≠ 0`: `x - y * n` where `n` is
`x / y` with its fractional part truncated. -/
def fmod (x y : ℚ) : ℚ := x - y * (((x / y).num.tdiv (x / y).den : ℤ) : ℚ)

/-- The function-local `static` variables of `Skybox::getSunData`; `lastTime` is
`none` until the first call initialises it with `time_`. -/
structure SunStatics where
  day : Bool
  lastSwitch : ℚ
  dayLerp : ℚ
  lastTime : Option ℚ
deriving DecidableEq

/-- The statics before the first call: `day = true`, `lastSwitch = 0.0f`,
`dayLerp = 1.0f`, `lastTime` not yet initialised. -/
def SunStatics.initial : SunStatics :=
  { day := true, lastSwitch := 0, dayLerp := 1, lastTime := none }

/-- The member `time_` of `class Skybox`. -/
structure Skybox where
  time_ : ℚ
deriving DecidableEq

namespace Skybox

/-- The constructor `Skybox::Skybox`: `time_(day_start)`. -/
def new : Skybox := { time_ := day_start }

/-- Source function `Skybox::update`. -/
def update (_self : Skybox) (time : ℚ) : Skybox := { time_ := time + day_start }

/-- The local `daytime` of `Skybox::getSunData`:
`fmod(time_, day_duration) / day_duration`. -/
def daytime (self : Skybox) : ℚ := fmod self.time_ day_duration / day_duration

/-- Source function `Skybox::getSunData`: the `w` component of the result (the
day/night blend factor `dayLerp`) and the statics after the call. -/
def getSunData (self : Skybox) (st : SunStatics) : ℚ × SunStatics :=
  let switch : Bool :=
    decide (0.7 < self.daytime ∧ self.daytime < 0.8 ∧
      0.5 < (self.time_ - st.lastSwitch) / day_duration)
  let day := if switch then !st.day else st.day
  let lastSwitch := if switch then self.time_ else st.lastSwitch
  let day_Night_Transition_Lenght : ℚ := 0.1 * day_duration
  let lastTime := st.lastTime.getD self.time_
  let timeDiff := self.time_ - lastTime
  let dayLerp :=
    if day = true ∧ st.dayLerp < 1 then
      let d := st.dayLerp + timeDiff / day_Night_Transition_Lenght
      if d > 1 then 1 else d
    else if day = false ∧ 0 < st.dayLerp then
      let d := st.dayLerp - timeDiff / day_Night_Transition_Lenght
      if d < 0 then 0 else d
    else st.dayLerp
  (dayLerp,
   { day := day, lastSwitch := lastSwitch, dayLerp := dayLerp, lastTime := some self.time_ })

end Skybox

/-! ### Properties of the shadow atlas -/

/-- Auxiliary: a pixel of the tile with index `a` along one axis that is also a
pixel of the tile with index `b` forces `a ≤ b`. -/
theorem tile_index_le {s a b p : Nat} (h1 : a * s ≤ p) (h2 : p < b * s + s) : a ≤ b := by
  have h : a * s < (b + 1) * s := by
    have : (b + 1) * s = b * s + s := by ring
    omega
  have := Nat.lt_of_mul_lt_mul_right h
  omega

/-- Auxiliary: on a square atlas every tile of index below `n * n` lies inside
the texture. -/
theorem tile_inside_of_square (s n d : Nat) (hd : d < n * n) :
    (Shadow.atDepth s n n d).tileViewport.inside
      (Shadow.atDepth s n n d).tex_width (Shadow.atDepth s n n d).tex_height := by
  have hn : 0 < n := by
    rcases Nat.eq_zero_or_pos n with h | h
    · subst h; simp at hd
    · exact h
  have hx : d / n < n := Nat.div_lt_of_lt_mul hd
  have hy : d % n < n := Nat.mod_lt _ hn
  simp only [Viewport.inside, Shadow.tileViewport, Shadow.atDepth, Shadow.new]
  constructor
  · calc d / n * s + s = (d / n + 1) * s := by ring
      _ ≤ n * s := Nat.mul_le_mul_right s hx
      _ = s * n := by ring
  · calc d % n * s + s = (d % n + 1) * s := by ring
      _ ≤ n * s := Nat.mul_le_mul_right s hy
      _ = s * n := by ring

/-- C1 (code evaluated at the failing input): for `Shadow(1, 1, 2)` one `push()`
after construction selects the tile with origin `(1, 0)` and side `1`, while the
atlas texture allocated by the constructor is `1` pixel wide and `2` pixels high:
the tile of an index below `xsize * ysize` lies outside the atlas. -/
theorem C1_tile_outside_atlas :
    ((Shadow.new 1 1 2 : Shadow Unit).push).curr_depth_ = 1 ∧
    1 < (Shadow.new 1 1 2 : Shadow Unit).max_depth_ ∧
    ((Shadow.new 1 1 2 : Shadow Unit).push).viewport
      = some { x := 1, y := 0, width := 1, height := 1 } ∧
    ((Shadow.new 1 1 2 : Shadow Unit).push).tex_width = 1 ∧
    ((Shadow.new 1 1 2 : Shadow Unit).push).tex_height = 2 ∧
    ¬ (Shadow.atDepth 1 1 2 1).tileViewport.inside
        (Shadow.atDepth 1 1 2 1).tex_width (Shadow.atDepth 1 1 2 1).tex_height := by
  decide

/-- C2: for a tile size `s ≥ 1`, atlas dimensions `xsize, ysize ≥ 1` and two
distinct tile indices `d1 ≠ d2` below `xsize * ysize`, the viewports selected by
`Shadow::setViewPort` for `d1` and `d2` have no pixel in common. -/
theorem C2_tiles_disjoint (s xsize ysize d1 d2 : Nat)
    (hs : 1 ≤ s) (hx : 1 ≤ xsize) (hy : 1 ≤ ysize)
    (h1 : d1 < xsize * ysize) (h2 : d2 < xsize * ysize) (hne : d1 ≠ d2)
    (v1 v2 : Viewport)
    (hv1 : (Shadow.atDepth s xsize ysize d1).setViewPort.viewport = some v1)
    (hv2 : (Shadow.atDepth s xsize ysize d2).setViewPort.viewport = some v2) :
    ∀ px py : Nat, ¬ (v1.covers px py ∧ v2.covers px py) := by
  intro px py
  simp only [Shadow.setViewPort, Shadow.tileViewport, Shadow.atDepth, Shadow.new,
    Option.some.injEq] at hv1 hv2
  subst hv1
  subst hv2
  simp only [Viewport.covers]
  rintro ⟨⟨a1, a2, a3, a4⟩, ⟨b1, b2, b3, b4⟩⟩
  have ex : d1 / xsize = d2 / xsize :=
    Nat.le_antisymm (tile_index_le a1 b2) (tile_index_le b1 a2)
  have ey : d1 % xsize = d2 % xsize :=
    Nat.le_antisymm (tile_index_le a3 b4) (tile_index_le b3 a4)
  apply hne
  rw [← Nat.div_add_mod d1 xsize, ← Nat.div_add_mod d2 xsize, ex, ey]

/-- C2 witness: on a 2 by 2 atlas of 4-pixel tiles the tiles of indices 1 and 2,
with origins `(0, 4)` and `(4, 0)`, share no pixel. -/
theorem C2_tiles_disjoint_witness :
    (Shadow.atDepth 4 2 2 1).setViewPort.viewport
        = some { x := 0, y := 4, width := 4, height := 4 } ∧
    (Shadow.atDepth 4 2 2 2).setViewPort.viewport
        = some { x := 4, y := 0, width := 4, height := 4 } ∧
    ∀ px py : Nat,
      ¬ ((⟨0, 4, 4, 4⟩ : Viewport).covers px py ∧ (⟨4, 0, 4, 4⟩ : Viewport).covers px py) :=
  ⟨by decide, by decide,
   C2_tiles_disjoint 4 2 2 1 2 (by decide) (by decide) (by decide) (by decide) (by decide)
    (by decide) ⟨0, 4, 4, 4⟩ ⟨4, 0, 4, 4⟩ (by decide) (by decide)⟩

/-- C10 (code evaluated at the failing input): for `Shadow(1, 1, 1)` the call
sequence `begin(); push()` is executed without error and leaves `curr_depth_ = 1`
while `cp_matrices_` has `xsize * ysize = 1` element, so the write
`cp_matrices_[curr_depth_]` of a following `modelCamProjMat` call is outside the
vector. -/
theorem C10_write_index_out_of_bounds :
    ∃ s : Shadow Unit,
      (Shadow.new 1 1 1 : Shadow Unit).run [.begin, .push] = some s ∧
      s.curr_depth_ = 1 ∧ s.cp_matrices_.length = 1 * 1 ∧
      ¬ s.curr_depth_ < s.cp_matrices_.length ∧
      s.modelCamProjMat () = none :=
  ⟨((Shadow.new 1 1 1 : Shadow Unit).begin).push, rfl, rfl, rfl, by decide, rfl⟩

/-! ### Properties of the animation choice -/

/-- C3: for every `current_anim` and every state of the character, the name
returned by `Ayumi::animationEndedCallback`, and every name `Ayumi::update`
passes to `setCurrentAnimation` or `forceCurrentAnimation`, is one of the names
registered with `addAnimation` in the constructor. -/
theorem C3_animation_names_registered (self : Ayumi) (keys : Keys) (anim : String) :
    (self.animationEndedCallback keys anim).1.name ∈ registeredAnimations ∧
    defaultAnimation ∈ registeredAnimations ∧
    ∀ p : AnimParams,
      ((self.update keys anim).1 = .setCurrentAnimation p ∨
       (self.update keys anim).1 = .forceCurrentAnimation p) →
      p.name ∈ registeredAnimations := by
  refine ⟨?_, ?_, ?_⟩
  · obtain ⟨a2, a3, ⟨j, jr, fl, w⟩, wlc⟩ := self
    obtain ⟨m, sh⟩ := keys
    by_cases h1 : anim = "Attack"
    · subst h1
      cases a2 <;> cases m <;> cases j <;> cases jr <;> cases w <;> cases sh <;>
        simp [Ayumi.animationEndedCallback, registeredAnimations]
    by_cases h2 : anim = "Attack2"
    · subst h2
      cases a3 <;> cases m <;> cases j <;> cases jr <;> cases w <;> cases sh <;>
        simp [Ayumi.animationEndedCallback, registeredAnimations]
    by_cases h3 : anim = "Attack3"
    · subst h3
      cases j <;> cases jr <;> cases w <;> cases sh <;>
        simp [Ayumi.animationEndedCallback, registeredAnimations]
    by_cases h4 : anim = "Flip"
    · subst h4
      simp [Ayumi.animationEndedCallback, registeredAnimations]
    by_cases h5 : anim = "Attack_Chain0"
    · subst h5
      cases j <;> cases jr <;> cases w <;> cases sh <;>
        simp [Ayumi.animationEndedCallback, registeredAnimations]
    cases j <;> cases jr <;> cases w <;> cases sh <;>
      simp [Ayumi.animationEndedCallback, registeredAnimations, h1, h2, h3, h4, h5]
  · simp [defaultAnimation, registeredAnimations]
  · intro p hp
    have key : p.name = "Attack" ∨ p.name = "Flip" ∨ p.name = "JumpRise"
        ∨ p.name = "JumpFall" ∨ p.name = "Run" ∨ p.name = "Walk" := by
      unfold Ayumi.update at hp
      split_ifs at hp <;> rcases hp with hp | hp <;>
        simp only [Prod.mk.injEq, AnimCall.setCurrentAnimation.injEq,
          AnimCall.forceCurrentAnimation.injEq, reduceCtorEq] at hp <;>
        subst hp <;> simp
    rcases key with h | h | h | h | h | h <;> rw [h] <;> simp [registeredAnimations]

/-- C3 witness: a left click while falling makes `update` force `"Attack"`,
which is registered. -/
theorem C3_animation_names_registered_witness :
    "Attack" ∈ registeredAnimations :=
  (C3_animation_names_registered ⟨false, false, ⟨true, false, false, false⟩, true⟩
    ⟨false, true⟩ "JumpFall").2.2 ⟨"Attack", 20⟩ (Or.inr (by decide))

/-! ### Properties of `Texture::format` and `Texture::internalFormat` -/

/-- Auxiliary: a format string outside `knownFormats` differs from each of the
eight accepted strings. -/
theorem not_known_iff (s : List Char) :
    s ∉ knownFormats ↔
      (s ≠ ['R'] ∧ s ≠ ['G'] ∧ s ≠ ['B'] ∧ s ≠ ['R', 'G'] ∧ s ≠ ['R', 'G', 'B'] ∧
       s ≠ ['R', 'G', 'B', 'A'] ∧ s ≠ ['B', 'G', 'R'] ∧ s ≠ ['B', 'G', 'R', 'A']) := by
  simp only [knownFormats, List.mem_cons, List.mem_singleton, List.not_mem_nil, or_false,
    not_or, ne_eq]

/-- C5: for each stored format string among R, G, B, RG, RGB, RGBA, BGR, BGRA,
`Texture::format` returns the pixel format of the same name, in its `...Integer`
variant exactly when `integer_` is set (whatever `srgb_` and `compressed_` are);
for every other stored format string it aborts. -/
theorem C5_format_by_name (srgb compressed integer : Bool) :
    Texture.format ⟨srgb, compressed, integer, ['R']⟩
      = some (if integer then .RedInteger else .Red) ∧
    Texture.format ⟨srgb, compressed, integer, ['G']⟩
      = some (if integer then .GreenInteger else .Green) ∧
    Texture.format ⟨srgb, compressed, integer, ['B']⟩
      = some (if integer then .BlueInteger else .Blue) ∧
    Texture.format ⟨srgb, compressed, integer, ['R', 'G']⟩
      = some (if integer then .RgInteger else .Rg) ∧
    Texture.format ⟨srgb, compressed, integer, ['R', 'G', 'B']⟩
      = some (if integer then .RgbInteger else .Rgb) ∧
    Texture.format ⟨srgb, compressed, integer, ['R', 'G', 'B', 'A']⟩
      = some (if integer then .RgbaInteger else .Rgba) ∧
    Texture.format ⟨srgb, compressed, integer, ['B', 'G', 'R']⟩
      = some (if integer then .BgrInteger else .Bgr) ∧
    Texture.format ⟨srgb, compressed, integer, ['B', 'G', 'R', 'A']⟩
      = some (if integer then .BgraInteger else .Bgra) ∧
    ∀ s : List Char, s ∉ knownFormats →
      Texture.format ⟨srgb, compressed, integer, s⟩ = none := by
  have hrest : ∀ s : List Char, s ∉ knownFormats →
      Texture.format ⟨srgb, compressed, integer, s⟩ = none := by
    intro s hs
    obtain ⟨h1, h2, h3, h4, h5, h6, h7, h8⟩ := (not_known_iff s).1 hs
    cases integer <;> simp [Texture.format, h1, h2, h3, h4, h5, h6, h7, h8]
  refine ⟨?_, ?_, ?_, ?_, ?_, ?_, ?_, ?_, hrest⟩ <;>
    cases integer <;> simp [Texture.format]

/-- C5 witness: the stored format string `"RGBX"` is none of the eight accepted
ones and makes `format` abort. -/
theorem C5_format_by_name_witness :
    ['R', 'G', 'B', 'X'] ∉ knownFormats ∧
    Texture.format ⟨false, false, true, ['R', 'G', 'B', 'X']⟩ = none :=
  ⟨by decide, (C5_format_by_name false false true).2.2.2.2.2.2.2.2 _ (by decide)⟩

/-- C6: for the stored format strings R, G, B and RG the result of
`Texture::internalFormat` is a format that does not depend on `srgb_`; for RGB
and BGR it is `Srgb` (`CompressedSrgb` when `compressed_`) if `srgb_` is set and
`Rgb` (`CompressedRgb`) otherwise; for RGBA and BGRA it is `SrgbAlpha`
(`CompressedSrgbAlpha`) if `srgb_` is set and `Rgba` (`CompressedRgba`)
otherwise. -/
theorem C6_srgb_only_for_rgb_rgba (srgb srgb2 compressed integer : Bool) :
    (Texture.internalFormat ⟨srgb, compressed, integer, ['R']⟩
        = Texture.internalFormat ⟨srgb2, compressed, integer, ['R']⟩ ∧
     Texture.internalFormat ⟨srgb, compressed, integer, ['G']⟩
        = Texture.internalFormat ⟨srgb2, compressed, integer, ['G']⟩ ∧
     Texture.internalFormat ⟨srgb, compressed, integer, ['B']⟩
        = Texture.internalFormat ⟨srgb2, compressed, integer, ['B']⟩ ∧
     Texture.internalFormat ⟨srgb, compressed, integer, ['R', 'G']⟩
        = Texture.internalFormat ⟨srgb2, compressed, integer, ['R', 'G']⟩) ∧
    ((Texture.internalFormat ⟨srgb, compressed, integer, ['R']⟩).isSome = true ∧
     (Texture.internalFormat ⟨srgb, compressed, integer, ['G']⟩).isSome = true ∧
     (Texture.internalFormat ⟨srgb, compressed, integer, ['B']⟩).isSome = true ∧
     (Texture.internalFormat ⟨srgb, compressed, integer, ['R', 'G']⟩).isSome = true) ∧
    (Texture.internalFormat ⟨srgb, compressed, integer, ['R', 'G', 'B']⟩
        = some (if srgb then (if compressed then .CompressedSrgb else .Srgb)
                else (if compressed then .CompressedRgb else .Rgb)) ∧
     Texture.internalFormat ⟨srgb, compressed, integer, ['B', 'G', 'R']⟩
        = some (if srgb then (if compressed then .CompressedSrgb else .Srgb)
                else (if compressed then .CompressedRgb else .Rgb))) ∧
    (Texture.internalFormat ⟨srgb, compressed, integer, ['R', 'G', 'B', 'A']⟩
        = some (if srgb then (if compressed then .CompressedSrgbAlpha else .SrgbAlpha)
                else (if compressed then .CompressedRgba else .Rgba)) ∧
     Texture.internalFormat ⟨srgb, compressed, integer, ['B', 'G', 'R', 'A']⟩
        = some (if srgb then (if compressed then .CompressedSrgbAlpha else .SrgbAlpha)
                else (if compressed then .CompressedRgba else .Rgba))) := by
  cases srgb <;> cases srgb2 <;> cases compressed <;> simp [Texture.internalFormat]

/-- C7: for every stored format string among R, G, B, RG, RGB, RGBA, BGR, BGRA
and every value of `srgb_`, `Texture::internalFormat` returns a format that is
one of the `Compressed*` formats exactly when `compressed_` is set; R, G and B
all give `Red` (`CompressedRed`), RG gives `Rg` (`CompressedRg`), RGB and BGR
give the same result, RGBA and BGRA give the same result; for every other stored
format string it aborts. -/
theorem C7_compressed_flag (srgb compressed integer : Bool) :
    (∀ s : List Char, s ∈ knownFormats →
      ∃ f, Texture.internalFormat ⟨srgb, compressed, integer, s⟩ = some f ∧
        f.isCompressed = compressed) ∧
    (Texture.internalFormat ⟨srgb, compressed, integer, ['R']⟩
        = some (if compressed then .CompressedRed else .Red) ∧
     Texture.internalFormat ⟨srgb, compressed, integer, ['G']⟩
        = some (if compressed then .CompressedRed else .Red) ∧
     Texture.internalFormat ⟨srgb, compressed, integer, ['B']⟩
        = some (if compressed then .CompressedRed else .Red) ∧
     Texture.internalFormat ⟨srgb, compressed, integer, ['R', 'G']⟩
        = some (if compressed then .CompressedRg else .Rg)) ∧
    Texture.internalFormat ⟨srgb, compressed, integer, ['R', 'G', 'B']⟩
      = Texture.internalFormat ⟨srgb, compressed, integer, ['B', 'G', 'R']⟩ ∧
    Texture.internalFormat ⟨srgb, compressed, integer, ['R', 'G', 'B', 'A']⟩
      = Texture.internalFormat ⟨srgb, compressed, integer, ['B', 'G', 'R', 'A']⟩ ∧
    ∀ s : List Char, s ∉ knownFormats →
      Texture.internalFormat ⟨srgb, compressed, integer, s⟩ = none := by
  refine ⟨?_, ?_, ?_, ?_, ?_⟩
  · intro s hs
    simp only [knownFormats, List.mem_cons, List.mem_singleton, List.not_mem_nil,
      or_false] at hs
    rcases hs with h | h | h | h | h | h | h | h <;> subst h <;>
      cases srgb <;> cases compressed <;>
      simp [Texture.internalFormat, PixelDataInternalFormat.isCompressed]
  · cases compressed <;> simp [Texture.internalFormat]
  · cases compressed <;> simp [Texture.internalFormat]
  · cases compressed <;> simp [Texture.internalFormat]
  · intro s hs
    obtain ⟨h1, h2, h3, h4, h5, h6, h7, h8⟩ := (not_known_iff s).1 hs
    cases compressed <;> simp [Texture.internalFormat, h1, h2, h3, h4, h5, h6, h7, h8]

/-- C7 witness: the stored format string `"BGR"` with `compressed_` and `srgb_`
set yields a `Compressed*` format, and `"RGBX"` makes `internalFormat` abort. -/
theorem C7_compressed_flag_witness :
    (['B', 'G', 'R'] ∈ knownFormats ∧
      ∃ f, Texture.internalFormat ⟨true, true, false, ['B', 'G', 'R']⟩ = some f ∧
        f.isCompressed = true) ∧
    (['R', 'G', 'B', 'X'] ∉ knownFormats ∧
      Texture.internalFormat ⟨true, true, false, ['R', 'G', 'B', 'X']⟩ = none) :=
  ⟨⟨by decide, (C7_compressed_flag true true false).1 _ (by decide)⟩,
   ⟨by decide, (C7_compressed_flag true true false).2.2.2.2 _ (by decide)⟩⟩

/-! ### Properties of the animation control -/

/-- C9: `AnimatedMeshRenderer::setCurrentAnimation` leaves the renderer, and so
the current animation name and state, unchanged unless the current animation is
interruptable, the renderer is not in a transition and the new animation's name
differs from the one currently playing. -/
theorem C9_setCurrentAnimation_only_if {σ τ Time : Type}
    (impl : AnimationControl σ τ Time) (r : AnimatedMeshRenderer σ τ)
    (new_anim : AnimParams) (current_time : Time)
    (h : ¬ (r.isInterrupable = true ∧ impl.inTransition r current_time = false
            ∧ new_anim.name ≠ r.current_anim_name_)) :
    (r.setCurrentAnimation impl new_anim current_time).getCurrentAnimation
        = r.getCurrentAnimation ∧
    (r.setCurrentAnimation impl new_anim current_time).current_anim_ = r.current_anim_ ∧
    r.setCurrentAnimation impl new_anim current_time = r := by
  have e : r.setCurrentAnimation impl new_anim current_time = r := by
    unfold AnimatedMeshRenderer.setCurrentAnimation
    rw [if_neg h]
  rw [e]
  exact ⟨rfl, rfl, rfl⟩

/-- C9 witness: while the non-interruptable `"Attack"` plays, a request for
`"Run"` changes nothing. -/
theorem C9_setCurrentAnimation_only_if_witness :
    (sampleRenderer.setCurrentAnimation sampleControl ⟨"Run", 30⟩ 0).getCurrentAnimation
        = sampleRenderer.getCurrentAnimation ∧
    (sampleRenderer.setCurrentAnimation sampleControl ⟨"Run", 30⟩ 0).current_anim_
        = sampleRenderer.current_anim_ ∧
    sampleRenderer.setCurrentAnimation sampleControl ⟨"Run", 30⟩ 0 = sampleRenderer :=
  C9_setCurrentAnimation_only_if sampleControl sampleRenderer ⟨"Run", 30⟩ 0
    (by simp [AnimatedMeshRenderer.isInterrupable, sampleRenderer])

/-! ### Properties of the `Texture` constructor -/

theorem find_eq_none_iff (s : List Char) (c : Char) : find s c = none ↔ c ∉ s := by
  induction s with
  | nil => simp [find]
  | cons a as ih =>
    by_cases h : a = c
    · simp [find, h]
    · have h2 : ¬ c = a := fun e => h e.symm
      simp [find, h, h2, ih]

theorem eraseFirst_nil (c : Char) : eraseFirst c [] = [] := by
  simp [eraseFirst, find]

theorem eraseFirst_cons (c a : Char) (as : List Char) :
    eraseFirst c (a :: as) = if a = c then as else a :: eraseFirst c as := by
  by_cases h : a = c
  · simp [eraseFirst, find, h, erase]
  · simp only [eraseFirst, find, h, if_false]
    cases find as c <;> simp [erase]

theorem mem_eraseFirst_of_ne {c d : Char} (h : c ≠ d) (s : List Char) :
    d ∈ eraseFirst c s ↔ d ∈ s := by
  induction s with
  | nil => simp [eraseFirst_nil]
  | cons a as ih =>
    rw [eraseFirst_cons]
    by_cases hac : a = c
    · subst hac
      have hda : ¬ d = a := fun e => h e.symm
      simp [hda]
    · simp [hac, ih]

theorem length_eraseFirst_le (c : Char) (s : List Char) :
    (eraseFirst c s).length ≤ s.length := by
  induction s with
  | nil => simp [eraseFirst_nil]
  | cons a as ih =>
    rw [eraseFirst_cons]
    split_ifs
    · simp
    · simpa using ih

/-- Auxiliary: one pass with pending flags is the three successive removals. -/
theorem dropPending_eq (fS fC fI : Bool) (s : List Char) :
    dropPending fS fC fI s =
      (bif fI then eraseFirst 'I' else id)
        ((bif fC then eraseFirst 'C' else id) ((bif fS then eraseFirst 'S' else id) s)) := by
  induction s generalizing fS fC fI with
  | nil => cases fS <;> cases fC <;> cases fI <;> simp [dropPending, eraseFirst_nil]
  | cons a as ih =>
    by_cases hS : a = 'S'
    · subst hS
      cases fS <;> cases fC <;> cases fI <;> simp [dropPending, eraseFirst_cons, ih]
    by_cases hC : a = 'C'
    · subst hC
      cases fS <;> cases fC <;> cases fI <;> simp [dropPending, eraseFirst_cons, ih]
    by_cases hI : a = 'I'
    · subst hI
      cases fS <;> cases fC <;> cases fI <;> simp [dropPending, eraseFirst_cons, ih]
    cases fS <;> cases fC <;> cases fI <;>
      simp [dropPending, eraseFirst_cons, ih, hS, hC, hI]

theorem isFirstOccurrence_zero (a c : Char) (as : List Char) :
    isFirstOccurrence (a :: as) c 0 = decide (a = c) := by
  simp [isFirstOccurrence]

theorem isFirstOccurrence_succ (a c : Char) (as : List Char) (i : Nat) :
    isFirstOccurrence (a :: as) c (i + 1) = (!decide (a = c) && isFirstOccurrence as c i) := by
  simp only [isFirstOccurrence, List.getElem?_cons_succ, List.take_succ_cons, List.mem_cons,
    not_or]
  by_cases h : a = c
  · subst h; simp
  · have h2 : ¬ c = a := fun e => h e.symm
    simp [h, h2]

/-- Auxiliary: keeping all positions but the first occurrences that are still
pending is the one-pass removal. -/
theorem keepPositions_eq_dropPending (fS fC fI : Bool) (s : List Char) :
    keepPositions
      (fun i => !((fS && isFirstOccurrence s 'S' i) || (fC && isFirstOccurrence s 'C' i)
                   || (fI && isFirstOccurrence s 'I' i))) s
      = dropPending fS fC fI s := by
  induction s generalizing fS fC fI with
  | nil => simp [keepPositions, dropPending]
  | cons a as ih =>
    have tail : (fun i => !((fS && isFirstOccurrence (a :: as) 'S' (i + 1))
          || (fC && isFirstOccurrence (a :: as) 'C' (i + 1))
          || (fI && isFirstOccurrence (a :: as) 'I' (i + 1))))
        = (fun i => !(((fS && !decide (a = 'S')) && isFirstOccurrence as 'S' i)
          || ((fC && !decide (a = 'C')) && isFirstOccurrence as 'C' i)
          || ((fI && !decide (a = 'I')) && isFirstOccurrence as 'I' i))) := by
      funext i
      simp only [isFirstOccurrence_succ, Bool.and_assoc]
    simp only [keepPositions, isFirstOccurrence_zero, tail, ih]
    by_cases hS : a = 'S'
    · subst hS
      cases fS <;> cases fC <;> cases fI <;> simp [dropPending]
    by_cases hC : a = 'C'
    · subst hC
      cases fS <;> cases fC <;> cases fI <;> simp [dropPending]
    by_cases hI : a = 'I'
    · subst hI
      cases fS <;> cases fC <;> cases fI <;> simp [dropPending]
    cases fS <;> cases fC <;> cases fI <;> simp [dropPending, hS, hC, hI]

/-- Auxiliary: the position-wise description agrees with the three successive
`find` / `erase` steps of the constructor. -/
theorem withoutFirstSCI_eq (s : List Char) :
    withoutFirstSCI s = eraseFirst 'I' (eraseFirst 'C' (eraseFirst 'S' s)) := by
  have h := keepPositions_eq_dropPending true true true s
  simp only [Bool.true_and] at h
  rw [withoutFirstSCI, h, dropPending_eq]
  rfl

theorem length_withoutFirstSCI_le (s : List Char) :
    (withoutFirstSCI s).length ≤ s.length := by
  rw [withoutFirstSCI_eq]
  exact le_trans (length_eraseFirst_le _ _)
    (le_trans (length_eraseFirst_le _ _) (length_eraseFirst_le _ _))

theorem ctorS_eq (NDEBUG : Bool) (N : Int) (st : CtorState) :
    Texture.ctorS NDEBUG N st =
      if 'S' ∈ st.format_string → assertOk NDEBUG (decide (N ≥ 3)) = true then
        some { self := { st.self with
                 srgb_ := st.self.srgb_ || decide ('S' ∈ st.format_string) }
               format_string := eraseFirst 'S' st.format_string }
      else none := by
  unfold Texture.ctorS eraseFirst
  cases hf : find st.format_string 'S' with
  | none =>
    have hmem : 'S' ∉ st.format_string := (find_eq_none_iff _ _).1 hf
    simp [hmem]
  | some pos =>
    have hmem : 'S' ∈ st.format_string := by
      by_contra hc
      rw [(find_eq_none_iff _ _).2 hc] at hf
      cases hf
    simp [hmem]

theorem ctorC_eq (st : CtorState) :
    Texture.ctorC st =
      { self := { st.self with
          compressed_ := st.self.compressed_ || decide ('C' ∈ st.format_string) }
        format_string := eraseFirst 'C' st.format_string } := by
  unfold Texture.ctorC eraseFirst
  cases hf : find st.format_string 'C' with
  | none =>
    have hmem : 'C' ∉ st.format_string := (find_eq_none_iff _ _).1 hf
    simp [hmem]
  | some pos =>
    have hmem : 'C' ∈ st.format_string := by
      by_contra hc
      rw [(find_eq_none_iff _ _).2 hc] at hf
      cases hf
    simp [hmem]

theorem ctorI_eq (st : CtorState) :
    Texture.ctorI st =
      { self := { st.self with
          integer_ := st.self.integer_ || decide ('I' ∈ st.format_string) }
        format_string := eraseFirst 'I' st.format_string } := by
  unfold Texture.ctorI eraseFirst
  cases hf : find st.format_string 'I' with
  | none =>
    have hmem : 'I' ∉ st.format_string := (find_eq_none_iff _ _).1 hf
    simp [hmem]
  | some pos =>
    have hmem : 'I' ∈ st.format_string := by
      by_contra hc
      rw [(find_eq_none_iff _ _).2 hc] at hf
      cases hf
    simp [hmem]

/-- Auxiliary: the constructor in closed form. -/
theorem ctor_eq (NDEBUG : Bool) (N : Int) (init : Texture) (fs : List Char) :
    Texture.ctor NDEBUG N init fs =
      if ('S' ∈ fs → assertOk NDEBUG (decide (N ≥ 3)) = true) ∧
          assertOk NDEBUG (decide (N ≤ 4)) = true ∧
          assertOk NDEBUG
            (decide (((withoutFirstSCI fs).length : Int) = N % 2 ^ SIZE_WIDTH)) = true then
        some { srgb_ := init.srgb_ || decide ('S' ∈ fs)
               compressed_ := init.compressed_ || decide ('C' ∈ fs)
               integer_ := init.integer_ || decide ('I' ∈ fs)
               format_string_ := withoutFirstSCI fs }
      else none := by
  have hC : ('C' ∈ eraseFirst 'S' fs) ↔ 'C' ∈ fs := mem_eraseFirst_of_ne (by decide) fs
  have hI : ('I' ∈ eraseFirst 'C' (eraseFirst 'S' fs)) ↔ 'I' ∈ fs :=
    (mem_eraseFirst_of_ne (by decide) _).trans (mem_eraseFirst_of_ne (by decide) fs)
  have hw : withoutFirstSCI fs = eraseFirst 'I' (eraseFirst 'C' (eraseFirst 'S' fs)) :=
    withoutFirstSCI_eq fs
  have hdC : decide ('C' ∈ eraseFirst 'S' fs) = decide ('C' ∈ fs) := by simp only [hC]
  have hdI : decide ('I' ∈ eraseFirst 'C' (eraseFirst 'S' fs)) = decide ('I' ∈ fs) := by
    simp only [hI]
  unfold Texture.ctor
  rw [ctorS_eq]
  by_cases h1 : 'S' ∈ fs → assertOk NDEBUG (decide (N ≥ 3)) = true
  · rw [if_pos h1, Option.some_bind]
    simp only [ctorC_eq, ctorI_eq, hdC, hdI, ← hw]
    by_cases h2 : assertOk NDEBUG (decide (N ≤ 4)) = true
    · by_cases h3 : assertOk NDEBUG
          (decide (((withoutFirstSCI fs).length : Int) = N % 2 ^ SIZE_WIDTH)) = true
      · rw [if_pos h2, if_pos h3, if_pos ⟨h1, h2, h3⟩]
      · rw [if_pos h2, if_neg h3, if_neg (fun h => h3 h.2.2)]
    · rw [if_neg h2, if_neg (fun h => h2 h.2.1)]
  · rw [if_neg h1, Option.none_bind, if_neg (fun h => h1 h.1)]

/-- C4: for every input format string the constructor, when it runs to the end
(it always does when assertions are compiled out), has set `srgb_` to true if
the string contains `'S'`, `compressed_` if it contains `'C'` and `integer_` if
it contains `'I'` (each flag is otherwise left as it was), and the stored
`format_string_` is the input with exactly the first occurrence of each of
`'S'`, `'C'` and `'I'` removed, all other characters kept in their order. -/
theorem C4_format_string_flags (N : Int) (init : Texture) (fs : List Char) :
    (∃ t, Texture.ctor true N init fs = some t) ∧
    ∀ (NDEBUG : Bool) (t : Texture), Texture.ctor NDEBUG N init fs = some t →
      ('S' ∈ fs → t.srgb_ = true) ∧ ('C' ∈ fs → t.compressed_ = true) ∧
      ('I' ∈ fs → t.integer_ = true) ∧
      ('S' ∉ fs → t.srgb_ = init.srgb_) ∧ ('C' ∉ fs → t.compressed_ = init.compressed_) ∧
      ('I' ∉ fs → t.integer_ = init.integer_) ∧
      t.format_string_ = withoutFirstSCI fs := by
  constructor
  · rw [ctor_eq]
    simp [assertOk]
  · intro NDEBUG t ht
    rw [ctor_eq] at ht
    split_ifs at ht
    cases ht
    refine ⟨?_, ?_, ?_, ?_, ?_, ?_, rfl⟩ <;> intro h <;> simp [h]

/-- C4 witness: `Texture<.., 3>` built from `"ISSRCCGBS"` without assertions
stores `"SRCGBS"` and has all three flags set. -/
theorem C4_format_string_flags_witness :
    Texture.ctor true 3 ⟨false, false, false, []⟩ "ISSRCCGBS".toList
      = some ⟨true, true, true, "SRCGBS".toList⟩ ∧
    (('S' ∈ "ISSRCCGBS".toList → (⟨true, true, true, "SRCGBS".toList⟩ : Texture).srgb_ = true) ∧
     "SRCGBS".toList = withoutFirstSCI "ISSRCCGBS".toList) :=
  ⟨by decide,
   ((C4_format_string_flags 3 ⟨false, false, false, []⟩ "ISSRCCGBS".toList).2 true
      ⟨true, true, true, "SRCGBS".toList⟩ (by decide)).1,
   ((C4_format_string_flags 3 ⟨false, false, false, []⟩ "ISSRCCGBS".toList).2 true
      ⟨true, true, true, "SRCGBS".toList⟩ (by decide)).2.2.2.2.2.2⟩

/-- C8: with assertions enabled, the constructor passes all its assertions for a
format string (of a length below `2 ^ 63`) and a `char` component count
`NUM_COMPONENTS` exactly when `NUM_COMPONENTS ≤ 4`, the format string with the
first `'S'`, first `'C'` and first `'I'` removed has length `NUM_COMPONENTS`, and
`NUM_COMPONENTS ≥ 3` whenever the format string contains `'S'`. -/
theorem C8_assertions_hold_iff (N : Int) (init : Texture) (fs : List Char)
    (hN : -128 ≤ N ∧ N ≤ 255) (hlen : fs.length < 2 ^ 63) :
    (Texture.ctor false N init fs).isSome = true ↔
      (N ≤ 4 ∧ ((withoutFirstSCI fs).length : Int) = N ∧ ('S' ∈ fs → N ≥ 3)) := by
  have hl := length_withoutFirstSCI_le fs
  have hmod : ((withoutFirstSCI fs).length : Int) = N % 2 ^ SIZE_WIDTH
      ↔ ((withoutFirstSCI fs).length : Int) = N := by
    have e : (2 : Int) ^ SIZE_WIDTH = 18446744073709551616 := by norm_num [SIZE_WIDTH]
    have hlen2 : (fs.length : Int) < 9223372036854775808 := by
      have : fs.length < 9223372036854775808 := by norm_num at hlen; exact hlen
      exact_mod_cast this
    have hl2 : ((withoutFirstSCI fs).length : Int) ≤ (fs.length : Int) := by exact_mod_cast hl
    rw [e]
    omega
  rw [ctor_eq]
  simp only [assertOk, Bool.false_or, decide_eq_true_eq, hmod]
  split_ifs with h
  · simp only [Option.isSome_some, true_iff]
    exact ⟨h.2.1, h.2.2, h.1⟩
  · simp only [Option.isSome_none, Bool.false_eq_true, false_iff]
    intro h2
    exact h ⟨h2.2.2, h2.1, h2.2.1⟩

/-- C8 witness: `Texture<.., 3>` accepts `"SRGBC"`. -/
theorem C8_assertions_hold_iff_witness :
    (Texture.ctor false 3 ⟨false, false, false, []⟩ "SRGBC".toList).isSome = true ↔
      ((3 : Int) ≤ 4 ∧ ((withoutFirstSCI "SRGBC".toList).length : Int) = 3
        ∧ ('S' ∈ "SRGBC".toList → (3 : Int) ≥ 3)) :=
  C8_assertions_hold_iff 3 ⟨false, false, false, []⟩ "SRGBC".toList (by decide) (by decide)

/-! ### Properties of the shadow depth counter -/

theorem Shadow.inv_new {μ : Type} [Inhabited μ] (size xsize ysize : Nat) :
    (Shadow.new size xsize ysize : Shadow μ).Inv (xsize * ysize) := by
  simp [Shadow.Inv, Shadow.new]

theorem Shadow.inv_begin {μ : Type} {m : Nat} {s : Shadow μ} (h : s.Inv m) :
    s.begin.Inv m := by
  obtain ⟨h1, h2, _⟩ := h
  exact ⟨h1, h2, Nat.zero_le m⟩

theorem Shadow.inv_push {μ : Type} {m : Nat} {s : Shadow μ} (h : s.Inv m) :
    s.push.Inv m := by
  obtain ⟨h1, h2, h3⟩ := h
  unfold Shadow.push
  split_ifs with hlt
  · refine ⟨h1, h2, ?_⟩
    simp only [Shadow.setViewPort]
    omega
  · exact ⟨h1, h2, h3⟩

theorem Shadow.inv_step {μ : Type} {m : Nat} {s t : Shadow μ} (c : Shadow.Call μ)
    (h : s.Inv m) (hst : s.step c = some t) : t.Inv m := by
  cases c with
  | begin =>
    simp only [Shadow.step, Option.some.injEq] at hst
    subst hst
    exact Shadow.inv_begin h
  | push =>
    simp only [Shadow.step, Option.some.injEq] at hst
    subst hst
    exact Shadow.inv_push h
  | modelCamProjMat mat =>
    obtain ⟨h1, h2, h3⟩ := h
    simp only [Shadow.step, Shadow.modelCamProjMat] at hst
    split_ifs at hst
    simp only [Option.some.injEq] at hst
    subst hst
    exact ⟨h1, by simpa using h2, h3⟩

theorem Shadow.inv_run {μ : Type} {m : Nat} (calls : List (Shadow.Call μ)) {s t : Shadow μ}
    (h : s.Inv m) (hst : s.run calls = some t) : t.Inv m := by
  induction calls generalizing s with
  | nil =>
    simp only [Shadow.run, Option.some.injEq] at hst
    subst hst
    exact h
  | cons c cs ih =>
    simp only [Shadow.run] at hst
    cases hc : s.step c with
    | none => rw [hc] at hst; simp at hst
    | some s1 =>
      rw [hc] at hst
      exact ih (Shadow.inv_step c h hc) hst

/-- Auxiliary: `n` calls of `push()` always run and add `n` to the depth, capped
at `max_depth_`. -/
theorem Shadow.run_pushes {μ : Type} (n : Nat) (s : Shadow μ)
    (h : s.curr_depth_ ≤ s.max_depth_) :
    ∃ t, s.run (List.replicate n Shadow.Call.push) = some t ∧
      t.max_depth_ = s.max_depth_ ∧
      t.curr_depth_ = min (s.curr_depth_ + n) s.max_depth_ := by
  induction n generalizing s with
  | zero => exact ⟨s, rfl, rfl, by simp [h]⟩
  | succ k ih =>
    have hmax : s.push.max_depth_ = s.max_depth_ := by
      unfold Shadow.push
      split_ifs <;> rfl
    have hcur : s.push.curr_depth_ = min (s.curr_depth_ + 1) s.max_depth_ := by
      unfold Shadow.push
      split_ifs with hlt
      · simp only [Shadow.setViewPort]
        omega
      · omega
    have hle : s.push.curr_depth_ ≤ s.push.max_depth_ := by
      rw [hmax, hcur]
      exact Nat.min_le_right _ _
    obtain ⟨t, ht, htm, htc⟩ := ih s.push hle
    refine ⟨t, ?_, by rw [htm, hmax], ?_⟩
    · simp only [List.replicate_succ, Shadow.run, Shadow.step, Option.some_bind]
      exact ht
    · rw [htc, hcur, hmax]
      omega

/-- C11: for a `Shadow` object constructed with any `xsize`, `ysize` and brought
into any reachable state by `begin()`, `push()` and `modelCamProjMat()` calls,
`begin()` followed by `n` calls of `push()` runs and leaves
`getDepth() = min(n, xsize * ysize)`; in every reachable state
`getDepth() ≤ getMaxDepth()`, and every index `i < getDepth()` read by
`Ayumi::render` in `shadowCPs()[i]` is within the vector. -/
theorem C11_depth_is_min {μ : Type} [Inhabited μ] (size xsize ysize n : Nat)
    (calls : List (Shadow.Call μ)) (s : Shadow μ)
    (hs : (Shadow.new size xsize ysize : Shadow μ).run calls = some s) :
    (∃ t, s.run (Shadow.Call.begin :: List.replicate n Shadow.Call.push) = some t ∧
      t.getDepth = min n (xsize * ysize)) ∧
    s.getDepth ≤ s.getMaxDepth ∧
    ∀ i, i < s.getDepth → i < s.shadowCPs.length := by
  obtain ⟨h1, h2, h3⟩ := Shadow.inv_run calls (Shadow.inv_new size xsize ysize) hs
  refine ⟨?_, ?_, ?_⟩
  · obtain ⟨t, ht, _, htc⟩ := Shadow.run_pushes n s.begin (Nat.zero_le _)
    refine ⟨t, ?_, ?_⟩
    · simp only [Shadow.run, Shadow.step, Option.some_bind]
      exact ht
    · have hb : s.begin.max_depth_ = xsize * ysize := h1
      have hc : s.begin.curr_depth_ = 0 := rfl
      rw [Shadow.getDepth, htc, hb, hc, Nat.zero_add]
  · simp only [Shadow.getDepth, Shadow.getMaxDepth]
    omega
  · intro i hi
    simp only [Shadow.getDepth, Shadow.shadowCPs] at *
    omega

/-- C11 witness: on `Shadow(1, 2, 2)` after one `push()`, `begin()` followed by
five `push()` calls leaves the depth at `min 5 4`. -/
theorem C11_depth_is_min_witness :
    (∃ t, ((Shadow.new 1 2 2 : Shadow Unit).push).run
        (Shadow.Call.begin :: List.replicate 5 Shadow.Call.push) = some t ∧
      t.getDepth = min 5 (2 * 2)) ∧
    ((Shadow.new 1 2 2 : Shadow Unit).push).getDepth
      ≤ ((Shadow.new 1 2 2 : Shadow Unit).push).getMaxDepth ∧
    ∀ i, i < ((Shadow.new 1 2 2 : Shadow Unit).push).getDepth →
      i < ((Shadow.new 1 2 2 : Shadow Unit).push).shadowCPs.length :=
  C11_depth_is_min 1 2 2 5 [Shadow.Call.push] ((Shadow.new 1 2 2 : Shadow Unit).push) rfl

/-! ### Properties of the day/night blend factor -/

/-- Auxiliary: the `day` flag changes only at a call whose daytime lies strictly
between 0.7 and 0.8. -/
theorem Skybox.day_changes_only_in_window (self : Skybox) (st : SunStatics)
    (h : (self.getSunData st).2.day ≠ st.day) :
    0.7 < self.daytime ∧ self.daytime < 0.8 := by
  simp only [Skybox.getSunData] at h
  by_contra hc
  apply h
  have hdec : decide (0.7 < self.daytime ∧ self.daytime < 0.8 ∧
      0.5 < (self.time_ - st.lastSwitch) / day_duration) = false := by
    rw [decide_eq_false_iff_not]
    exact fun hw => hc ⟨hw.1, hw.2.1⟩
  rw [hdec]
  rfl

/-- C12 (code evaluated at the failing input): three `getSunData` calls at the
non-decreasing times `time_ = 179, 204, 210` (after `update(163)`, `update(188)`,
`update(194)`) return the blend factors `1`, `3/128` and `0`; at the third call
the daytime is `210 / 256`, outside the interval from 0.7 to 0.8, and yet the
blend factor differs from its value at the previous call. -/
theorem C12_blend_changes_outside_window :
    (Skybox.new.update 163).time_ = 179 ∧ (Skybox.new.update 188).time_ = 204 ∧
    (Skybox.new.update 194).time_ = 210 ∧
    (Skybox.new.update 163).getSunData SunStatics.initial
      = (1, ⟨true, 0, 1, some 179⟩) ∧
    (Skybox.new.update 188).getSunData ⟨true, 0, 1, some 179⟩
      = (3 / 128, ⟨false, 204, 3 / 128, some 204⟩) ∧
    (Skybox.new.update 194).getSunData ⟨false, 204, 3 / 128, some 204⟩
      = (0, ⟨false, 204, 0, some 210⟩) ∧
    (Skybox.new.update 194).daytime = 105 / 128 ∧
    ¬ (0.7 < (Skybox.new.update 194).daytime ∧ (Skybox.new.update 194).daytime < 0.8) ∧
    ((Skybox.new.update 194).getSunData ⟨false, 204, 3 / 128, some 204⟩).1
      ≠ ((Skybox.new.update 188).getSunData ⟨true, 0, 1, some 179⟩).1 := by
  have t1 : Int.tdiv 179 256 = 0 := by decide
  have t2 : Int.tdiv 51 64 = 0 := by decide
  have t3 : Int.tdiv 105 128 = 0 := by decide
  have e1 : (Skybox.new.update 163) = ⟨179⟩ := by
    norm_num [Skybox.update, day_start, day_duration]
  have e2 : (Skybox.new.update 188) = ⟨204⟩ := by
    norm_num [Skybox.update, day_start, day_duration]
  have e3 : (Skybox.new.update 194) = ⟨210⟩ := by
    norm_num [Skybox.update, day_start, day_duration]
  rw [e1, e2, e3]
  refine ⟨rfl, rfl, rfl, ?_, ?_, ?_, ?_, ?_, ?_⟩ <;>
    norm_num [Skybox.getSunData, Skybox.daytime, SunStatics.initial, fmod, day_duration,
      t1, t2, t3]

end LoD
